import Mathlib

/-!
Shallow embedding of the curve-frame, scroll-follower, cutscene and texture
loading logic of the Theatre-js repository (src/main.ts, src/myself.ts,
src/other.ts), with theorems checking the specification claims against it.
Vector and pulse arithmetic is modelled over ℚ (JS doubles, handled exactly);
the exponential smoothing step is modelled over ℝ since it uses Math.exp.
-/

namespace Theatre

/-- 3D vector with rational coordinates, modelling THREE.Vector3. -/
structure Vec3 where
  x : ℚ
  y : ℚ
  z : ℚ
deriving DecidableEq

namespace Vec3

/-- THREE.Vector3.dot. -/
def dot (a b : Vec3) : ℚ := a.x * b.x + a.y * b.y + a.z * b.z

/-- THREE.Vector3.crossVectors. -/
def cross (a b : Vec3) : Vec3 :=
  ⟨a.y * b.z - a.z * b.y, a.z * b.x - a.x * b.z, a.x * b.y - a.y * b.x⟩

/-- THREE.Vector3.lengthSq. -/
def lengthSq (a : Vec3) : ℚ := dot a a

/-- Scalar multiple of a vector. -/
def scale (s : ℚ) (a : Vec3) : Vec3 := ⟨s * a.x, s * a.y, s * a.z⟩

/-- THREE.Vector3.sub. -/
def sub (a b : Vec3) : Vec3 := ⟨a.x - b.x, a.y - b.y, a.z - b.z⟩

/-- THREE.Vector3.addScaledVector: a + s * v. -/
def addScaled (a v : Vec3) (s : ℚ) : Vec3 :=
  ⟨a.x + s * v.x, a.y + s * v.y, a.z + s * v.z⟩

end Vec3

/-- World-up vector (0, 1, 0) from src/main.ts line 78. -/
def WORLD_UP : Vec3 := ⟨0, 1, 0⟩

/-- Fallback axis (1, 0, 0) used by the degenerate-frame branch
(src/main.ts lines 94 and 191). -/
def FALLBACK_AXIS : Vec3 := ⟨1, 0, 0⟩

/-- Degeneracy threshold 1e-8 from src/main.ts lines 93 and 190. -/
def DEGEN_EPS : ℚ := 1 / 100000000

/-- Un-normalized right vector of the rail/sleeper frame (src/main.ts
lines 92-95 and 189-193): cross(WORLD_UP, tangent), replaced by
cross(FALLBACK_AXIS, tangent) when its squared length is below 1e-8.
The code then normalizes this vector; normalization is modelled in the
theorems by a positive scalar whose square times the squared length is 1. -/
def rawRight (tangent : Vec3) : Vec3 :=
  if (Vec3.cross WORLD_UP tangent).lengthSq < DEGEN_EPS then
    Vec3.cross FALLBACK_AXIS tangent
  else
    Vec3.cross WORLD_UP tangent

/-- Track gauge, 1.0, from src/main.ts line 74. -/
def gauge : ℚ := 1

/-- Left rail point p + right * (gauge / 2), src/main.ts line 98. -/
def leftRailPoint (p right : Vec3) : Vec3 := p.addScaled right (gauge / 2)

/-- Right rail point p - right * (gauge / 2), src/main.ts line 99. -/
def rightRailPoint (p right : Vec3) : Vec3 := p.addScaled right (-(gauge / 2))

/-- THREE.MathUtils.clamp value lo hi = max(lo, min(hi, value)). -/
def clamp (value lo hi : ℚ) : ℚ := max lo (min hi value)

/-- smoothstep from src/main.ts lines 240-243. -/
def smoothstep (edge0 edge1 x : ℚ) : ℚ :=
  let t := clamp ((x - edge0) / (edge1 - edge0)) 0 1
  t * t * (3 - 2 * t)

/-- pulse from src/main.ts lines 245-249:
min(smoothstep a b x, 1 - smoothstep c d x). -/
def pulse (a b c d x : ℚ) : ℚ :=
  min (smoothstep a b x) (1 - smoothstep c d x)

/-- Cutscene trigger threshold 0.45 (src/main.ts line 269). -/
def CUT_START : ℚ := 45 / 100

/-- Cutscene end progress 0.62 (src/main.ts line 270). -/
def CUT_END : ℚ := 62 / 100

/-- The scroll/cutscene state of src/main.ts lines 260-266: the ride progress
ride.t, the scroll-driven progress ride.scrollT, and the inCutscene /
cutscenePlayed flags. -/
structure RideState where
  rideT : ℚ
  scrollT : ℚ
  inCutscene : Bool
  cutscenePlayed : Bool
deriving DecidableEq

/-- Initial state of src/main.ts: ride = {t: 0, scrollT: 0},
inCutscene = false, cutscenePlayed = false. -/
def initRide : RideState := ⟨0, 0, false, false⟩

/-- ScrollTrigger onUpdate (src/main.ts lines 280-283): ride.scrollT is set to
the scroll progress, and ride.t follows it unless a cutscene is running. -/
def onScrollUpdate (s : RideState) (progress : ℚ) : RideState :=
  { s with
    scrollT := progress
    rideT := if s.inCutscene then s.rideT else progress }

/-- tryStartCutscene (src/main.ts lines 295-314).  Returns the new state and
whether a cutscene tween was started on this call. -/
def tryStartCutscene (s : RideState) : RideState × Bool :=
  if s.cutscenePlayed then (s, false)
  else if CUT_START ≤ s.scrollT then
    ({ s with cutscenePlayed := true, inCutscene := true, rideT := CUT_START }, true)
  else (s, false)

/-- Events driving the cutscene state: a render frame carrying the current
scroll progress (ScrollTrigger onUpdate followed by the render loop's
tryStartCutscene call), or the gsap tween completing (src/main.ts
lines 308-311: inCutscene = false and the scroll position is resynchronized
to CUT_END, which feeds back through onUpdate). -/
inductive RideEvent where
  | frame (progress : ℚ)
  | tweenComplete
deriving DecidableEq

/-- One step of the cutscene state machine; the Bool records whether a
cutscene tween was started by this event. -/
def rideStep (s : RideState) (e : RideEvent) : RideState × Bool :=
  match e with
  | .frame progress => tryStartCutscene (onScrollUpdate s progress)
  | .tweenComplete =>
      ({ s with inCutscene := false, scrollT := CUT_END, rideT := CUT_END }, false)

/-- Number of cutscene starts over a sequence of events. -/
def countStarts (s : RideState) : List RideEvent → ℕ
  | [] => 0
  | e :: rest =>
      (if (rideStep s e).2 then 1 else 0) + countStarts (rideStep s e).1 rest

/-- THREE.MathUtils.lerp: x + (y - x) * t, over ℝ. -/
def lerp (x y t : ℝ) : ℝ := x + (y - x) * t

/-- clamp01 from src/myself.ts lines 311-313: max(0, min(1, v)). -/
noncomputable def clamp01 (v : ℝ) : ℝ := max 0 (min 1 v)

/-- damp from src/myself.ts lines 315-318: frame-rate independent exponential
smoothing, lerp(current, target, 1 - exp(-lambda * dt)). -/
noncomputable def damp (current target lambda dt : ℝ) : ℝ :=
  lerp current target (1 - Real.exp (-lambda * dt))

/-- Wheel sensitivity 0.0009 from src/myself.ts line 342. -/
def wheelStrength : ℝ := 0.0009

/-- Smoothing rate 10 from src/myself.ts line 343. -/
def smoothing : ℝ := 10

/-- The ScrollController state (src/myself.ts lines 332-344): enabled flag,
smoothed progress and wheel-driven target. -/
structure ScrollState where
  enabled : Bool
  progress : ℝ
  target : ℝ

/-- Initial controller state: progress = 0, target = 0, enabled. -/
def initScroll : ScrollState := ⟨true, 0, 0⟩

/-- Wheel handler (src/myself.ts lines 346-355): when enabled,
target = clamp01(target + deltaY * wheelStrength). -/
noncomputable def wheelEvent (s : ScrollState) (deltaY : ℝ) : ScrollState :=
  if s.enabled then
    { s with target := clamp01 (s.target + deltaY * wheelStrength) }
  else s

/-- setInstant (src/myself.ts lines 357-361). -/
noncomputable def setInstant (s : ScrollState) (v : ℝ) : ScrollState :=
  { s with target := clamp01 v, progress := clamp01 v }

/-- setTarget (src/myself.ts lines 363-365). -/
noncomputable def setTarget (s : ScrollState) (v : ℝ) : ScrollState :=
  { s with target := clamp01 v }

/-- update (src/myself.ts lines 371-374):
progress = damp(progress, target, smoothing, dt). -/
noncomputable def scrollUpdate (s : ScrollState) (dt : ℝ) : ScrollState :=
  { s with progress := damp s.progress s.target smoothing dt }

/-- The progress follower of the spec: current = 0, target = 1, lambda = 10,
iterated with fixed dt = 0.016 through ScrollController.update. -/
noncomputable def followerProgress : ℕ → ℝ
  | 0 => 0
  | n + 1 => damp (followerProgress n) 1 smoothing 0.016

/-- Operations offered by the ScrollController: a wheel event, setTarget,
setInstant, toggling the enabled flag (done by the cinematic intro), and the
per-frame update. -/
inductive ScrollOp where
  | wheel (deltaY : ℝ)
  | setTarget (v : ℝ)
  | setInstant (v : ℝ)
  | setEnabled (b : Bool)
  | update (dt : ℝ)

/-- Apply one controller operation. -/
noncomputable def applyOp (s : ScrollState) : ScrollOp → ScrollState
  | .wheel d => wheelEvent s d
  | .setTarget v => setTarget s v
  | .setInstant v => setInstant s v
  | .setEnabled b => { s with enabled := b }
  | .update dt => scrollUpdate s dt

/-- The only precondition: update is called with a nonnegative time step
(clock deltas are nonnegative; App.tick additionally clamps them). -/
def validOp : ScrollOp → Prop
  | .update dt => 0 ≤ dt
  | _ => True

/-- Run a list of controller operations from a state. -/
noncomputable def runOps (s : ScrollState) : List ScrollOp → ScrollState
  | [] => s
  | op :: rest => runOps (applyOp s op) rest

/-- The controller invariant: target and progress lie in [0, 1]. -/
def scrollInvariant (s : ScrollState) : Prop :=
  0 ≤ s.target ∧ s.target ≤ 1 ∧ 0 ≤ s.progress ∧ s.progress ≤ 1

/-- App.tick (src/myself.ts lines 1152-1169): the per-frame time step is
dt = min(0.05, clock.getDelta()); the same dt is handed to the scroll
smoothing update and to the active world update, and elapsed accumulates it.
The returned triple is (dt, new elapsed, scroll state after update). -/
noncomputable def appTick (s : ScrollState) (elapsed delta : ℝ) :
    ℝ × ℝ × ScrollState :=
  (min 0.05 delta, elapsed + min 0.05 delta, scrollUpdate s (min 0.05 delta))

/-- Truncating integer division result used by the JS % operator:
truncation of q toward zero. -/
def jsTrunc (q : ℚ) : ℤ := if 0 ≤ q then ⌊q⌋ else -⌊-q⌋

/-- The JS remainder operator a % b: a - b * trunc(a / b)
(sign follows the dividend). -/
def jsMod (a b : ℚ) : ℚ := a - b * jsTrunc (a / b)

/-- distToT (src/main.ts lines 164-168): wraps a signed distance into [0, L)
by ((dist % L) + L) % L and normalizes by the curve length L. -/
def distToT (L dist : ℚ) : ℚ := jsMod (jsMod dist L + L) L / L

/-- The render loop's parameter wrap ((t % 1) + 1) % 1 (src/main.ts
line 322). -/
def wrapT (t : ℚ) : ℚ := jsMod (jsMod t 1 + 1) 1

/-- A texture as far as the loader logic observes it: an identifier plus the
two fields loadImageTexture mutates (colorSpace and anisotropy). -/
structure Texture where
  id : ℕ
  srgb : Bool
  anisotropy : ℕ
deriving DecidableEq

/-- Outcome of the underlying TextureLoader.load call for a URL: the onLoad
callback fires with a texture, or the onError callback fires. -/
inductive LoadOutcome where
  | ok (tex : Texture)
  | err
deriving DecidableEq

/-- How a promise settles. -/
inductive PromiseResult (α : Type) where
  | resolved (val : α)
  | rejected

/-- The configuration applied to a successfully loaded texture
(src/other.ts lines 548-551): colorSpace = SRGB, anisotropy = max. -/
def configureTex (maxAniso : ℕ) (t : Texture) : Texture :=
  { t with srgb := true, anisotropy := maxAniso }

/-- loadImageTexture (src/other.ts lines 544-557): the promise executor calls
resolve in the onLoad callback (with the configured texture) and also calls
resolve — never reject — in the onError callback (with the supplied fallback
placeholder). -/
def loadImageTexture (maxAniso : ℕ) (outcome : LoadOutcome) (fallback : Texture) :
    PromiseResult Texture :=
  match outcome with
  | .ok tex => .resolved (configureTex maxAniso tex)
  | .err => .resolved fallback

lemma dot_cross_self_right (a b : Vec3) : Vec3.dot b (Vec3.cross a b) = 0 := by
  simp only [Vec3.dot, Vec3.cross]
  ring

lemma dot_cross_self_left (a b : Vec3) : Vec3.dot a (Vec3.cross a b) = 0 := by
  simp only [Vec3.dot, Vec3.cross]
  ring

lemma dot_scale_right (s : ℚ) (a b : Vec3) :
    Vec3.dot a (Vec3.scale s b) = s * Vec3.dot a b := by
  simp only [Vec3.dot, Vec3.scale]
  ring

lemma dot_scale_left (s : ℚ) (a b : Vec3) :
    Vec3.dot (Vec3.scale s a) b = s * Vec3.dot a b := by
  simp only [Vec3.dot, Vec3.scale]
  ring

lemma lengthSq_scale (s : ℚ) (a : Vec3) :
    (Vec3.scale s a).lengthSq = s ^ 2 * a.lengthSq := by
  simp only [Vec3.lengthSq, Vec3.dot, Vec3.scale]
  ring

/-- Lagrange identity for the cross product. -/
lemma lengthSq_cross (a b : Vec3) :
    (Vec3.cross a b).lengthSq = a.lengthSq * b.lengthSq - (Vec3.dot a b) ^ 2 := by
  simp only [Vec3.lengthSq, Vec3.dot, Vec3.cross]
  ring

/-- The right-vector computed by the frame builder is never the zero vector
when the tangent is a unit vector: either the primary cross product has
squared length at least 1e-8, or the tangent is within 1e-4 of ±world-up and
the fallback cross product is bounded away from zero. -/
lemma rawRight_lengthSq_pos (t : Vec3) (ht : t.lengthSq = 1) :
    0 < (rawRight t).lengthSq := by
  unfold rawRight
  split_ifs with h
  · simp only [Vec3.lengthSq, Vec3.dot, Vec3.cross, WORLD_UP, FALLBACK_AXIS, DEGEN_EPS] at *
    nlinarith [sq_nonneg t.x, sq_nonneg t.y, sq_nonneg t.z]
  · simp only [DEGEN_EPS, not_lt] at h
    linarith

/-- The un-normalized right vector is orthogonal to the tangent in both the
primary and the fallback branch, since both are cross products with the
tangent as an argument. -/
lemma dot_tangent_rawRight (t : Vec3) : Vec3.dot t (rawRight t) = 0 := by
  unfold rawRight
  split_ifs <;> exact dot_cross_self_right _ _

/-- C1: for every tangent t that is a unit vector, the frame computed by the
rail/sleeper builders (src/main.ts lines 87-100 and 186-195) — right =
normalize(cross(worldUp, t)) with the fallback axis substituted below the
degeneracy threshold, up = normalize(cross(t, right)) — consists of three
mutually orthogonal unit vectors.  Normalization is modelled exactly: sR and
sU are the positive reciprocal lengths, characterized by sR^2 * lengthSq = 1
(and similarly sU); the lemma rawRight_lengthSq_pos shows the right vector is
normalizable, the Lagrange conjunct shows cross(t, right) is itself a unit
vector, so the fallback path (exercised by the witness at t = world-up)
yields a full orthonormal frame. -/
theorem frame_orthonormal (t : Vec3) (ht : t.lengthSq = 1) (sR sU : ℚ)
    (hsR : sR ^ 2 * (rawRight t).lengthSq = 1)
    (hsU : sU ^ 2 * (Vec3.cross t (Vec3.scale sR (rawRight t))).lengthSq = 1) :
    0 < (rawRight t).lengthSq ∧
    Vec3.dot t (Vec3.scale sR (rawRight t)) = 0 ∧
    Vec3.dot t (Vec3.scale sU (Vec3.cross t (Vec3.scale sR (rawRight t)))) = 0 ∧
    Vec3.dot (Vec3.scale sR (rawRight t))
      (Vec3.scale sU (Vec3.cross t (Vec3.scale sR (rawRight t)))) = 0 ∧
    (Vec3.scale sR (rawRight t)).lengthSq = 1 ∧
    (Vec3.cross t (Vec3.scale sR (rawRight t))).lengthSq = 1 ∧
    (Vec3.scale sU (Vec3.cross t (Vec3.scale sR (rawRight t)))).lengthSq = 1 := by
  have hrzero : Vec3.dot t (Vec3.scale sR (rawRight t)) = 0 := by
    rw [dot_scale_right, dot_tangent_rawRight, mul_zero]
  have hrlen : (Vec3.scale sR (rawRight t)).lengthSq = 1 := by
    rw [lengthSq_scale]; exact hsR
  have hclen : (Vec3.cross t (Vec3.scale sR (rawRight t))).lengthSq = 1 := by
    rw [lengthSq_cross, ht, hrlen, hrzero]
    ring
  refine ⟨rawRight_lengthSq_pos t ht, hrzero, ?_, ?_, hrlen, hclen, ?_⟩
  · rw [dot_scale_right, dot_cross_self_left, mul_zero]
  · rw [dot_scale_right, dot_cross_self_right, mul_zero]
  · rw [lengthSq_scale]; exact hsU

/-- Witness for C1 at the degenerate tangent t = (0,1,0) = world-up, which
exercises the fallback branch: right = (0,0,1), up = (1,0,0). -/
theorem frame_orthonormal_witness :
    (⟨0, 1, 0⟩ : Vec3).lengthSq = 1 ∧
    (1 : ℚ) ^ 2 * (rawRight ⟨0, 1, 0⟩).lengthSq = 1 ∧
    (1 : ℚ) ^ 2 *
      (Vec3.cross ⟨0, 1, 0⟩ (Vec3.scale 1 (rawRight ⟨0, 1, 0⟩))).lengthSq = 1 ∧
    (0 < (rawRight ⟨0, 1, 0⟩).lengthSq ∧
      Vec3.dot ⟨0, 1, 0⟩ (Vec3.scale 1 (rawRight ⟨0, 1, 0⟩)) = 0 ∧
      Vec3.dot ⟨0, 1, 0⟩
        (Vec3.scale 1 (Vec3.cross ⟨0, 1, 0⟩ (Vec3.scale 1 (rawRight ⟨0, 1, 0⟩)))) = 0 ∧
      Vec3.dot (Vec3.scale 1 (rawRight ⟨0, 1, 0⟩))
        (Vec3.scale 1 (Vec3.cross ⟨0, 1, 0⟩ (Vec3.scale 1 (rawRight ⟨0, 1, 0⟩)))) = 0 ∧
      (Vec3.scale 1 (rawRight ⟨0, 1, 0⟩)).lengthSq = 1 ∧
      (Vec3.cross ⟨0, 1, 0⟩ (Vec3.scale 1 (rawRight ⟨0, 1, 0⟩))).lengthSq = 1 ∧
      (Vec3.scale 1
        (Vec3.cross ⟨0, 1, 0⟩ (Vec3.scale 1 (rawRight ⟨0, 1, 0⟩)))).lengthSq = 1) := by
  have h1 : (⟨0, 1, 0⟩ : Vec3).lengthSq = 1 := by
    norm_num [Vec3.lengthSq, Vec3.dot]
  have h2 : (1 : ℚ) ^ 2 * (rawRight ⟨0, 1, 0⟩).lengthSq = 1 := by
    norm_num [rawRight, Vec3.cross, Vec3.lengthSq, Vec3.dot, DEGEN_EPS, WORLD_UP,
      FALLBACK_AXIS]
  have h3 : (1 : ℚ) ^ 2 *
      (Vec3.cross ⟨0, 1, 0⟩ (Vec3.scale 1 (rawRight ⟨0, 1, 0⟩))).lengthSq = 1 := by
    norm_num [rawRight, Vec3.cross, Vec3.scale, Vec3.lengthSq, Vec3.dot, DEGEN_EPS,
      WORLD_UP, FALLBACK_AXIS]
  exact ⟨h1, h2, h3, frame_orthonormal ⟨0, 1, 0⟩ h1 1 1 h2 h3⟩

/-- C4: at every sample of the rail-building loop, with right the unit right
vector of the frame, the left rail point p + right * (gauge/2) and the right
rail point p - right * (gauge/2) are exactly gauge apart: the squared
distance equals gauge^2, and gauge = 1 (so the distance is 1). -/
theorem rail_points_gauge_apart (p right : Vec3) (hr : right.lengthSq = 1) :
    ((leftRailPoint p right).sub (rightRailPoint p right)).lengthSq = gauge ^ 2 ∧
    gauge = 1 := by
  constructor
  · have hdiff : (leftRailPoint p right).sub (rightRailPoint p right) =
        Vec3.scale gauge right := by
      simp only [leftRailPoint, rightRailPoint, Vec3.sub, Vec3.addScaled, Vec3.scale,
        gauge, Vec3.mk.injEq]
      refine ⟨?_, ?_, ?_⟩ <;> ring
    rw [hdiff, lengthSq_scale, hr, mul_one]
  · rfl

/-- Witness for C4 at p = (1,2,3), right = (0,0,1). -/
theorem rail_points_gauge_apart_witness :
    (⟨0, 0, 1⟩ : Vec3).lengthSq = 1 ∧
    (((leftRailPoint ⟨1, 2, 3⟩ ⟨0, 0, 1⟩).sub
        (rightRailPoint ⟨1, 2, 3⟩ ⟨0, 0, 1⟩)).lengthSq = gauge ^ 2 ∧
      gauge = 1) := by
  have h1 : (⟨0, 0, 1⟩ : Vec3).lengthSq = 1 := by
    norm_num [Vec3.lengthSq, Vec3.dot]
  exact ⟨h1, rail_points_gauge_apart ⟨1, 2, 3⟩ ⟨0, 0, 1⟩ h1⟩

lemma clamp01_nonneg (v : ℚ) : 0 ≤ clamp v 0 1 := le_max_left 0 _

lemma clamp01_le_one (v : ℚ) : clamp v 0 1 ≤ 1 :=
  max_le (by norm_num) (min_le_left 1 v)

lemma clamp01_mono {v w : ℚ} (h : v ≤ w) : clamp v 0 1 ≤ clamp w 0 1 :=
  max_le_max le_rfl (min_le_min le_rfl h)

/-- The Hermite cubic t^2 (3 - 2t) is non-decreasing on [0, 1]. -/
lemma hermite_cubic_mono {u v : ℚ} (hu : 0 ≤ u) (huv : u ≤ v) (hv : v ≤ 1) :
    u * u * (3 - 2 * u) ≤ v * v * (3 - 2 * v) := by
  nlinarith [sq_nonneg (v - u), sq_nonneg (v + u), mul_nonneg hu (sub_nonneg.2 huv),
    mul_nonneg (sub_nonneg.2 huv) (sub_nonneg.2 hv)]

/-- The Hermite cubic maps [0, 1] into [0, 1]. -/
lemma hermite_cubic_mem {u : ℚ} (hu : 0 ≤ u) (hv : u ≤ 1) :
    0 ≤ u * u * (3 - 2 * u) ∧ u * u * (3 - 2 * u) ≤ 1 := by
  constructor
  · nlinarith [sq_nonneg u]
  · nlinarith [sq_nonneg (1 - u)]

lemma smoothstep_nonneg (edge0 edge1 x : ℚ) : 0 ≤ smoothstep edge0 edge1 x := by
  have h := clamp01_nonneg ((x - edge0) / (edge1 - edge0))
  have h1 := clamp01_le_one ((x - edge0) / (edge1 - edge0))
  exact (hermite_cubic_mem h h1).1

lemma smoothstep_le_one (edge0 edge1 x : ℚ) : smoothstep edge0 edge1 x ≤ 1 := by
  have h := clamp01_nonneg ((x - edge0) / (edge1 - edge0))
  have h1 := clamp01_le_one ((x - edge0) / (edge1 - edge0))
  exact (hermite_cubic_mem h h1).2

lemma smoothstep_of_le {edge0 edge1 x : ℚ} (hlt : edge0 < edge1) (h : x ≤ edge0) :
    smoothstep edge0 edge1 x = 0 := by
  have hr : (x - edge0) / (edge1 - edge0) ≤ 0 :=
    div_nonpos_of_nonpos_of_nonneg (by linarith) (by linarith)
  have hc : clamp ((x - edge0) / (edge1 - edge0)) 0 1 = 0 :=
    max_eq_left (le_trans (min_le_right 1 _) hr)
  simp only [smoothstep, hc]
  ring

lemma smoothstep_of_ge {edge0 edge1 x : ℚ} (hlt : edge0 < edge1) (h : edge1 ≤ x) :
    smoothstep edge0 edge1 x = 1 := by
  have hpos : 0 < edge1 - edge0 := by linarith
  have hr : 1 ≤ (x - edge0) / (edge1 - edge0) :=
    (le_div_iff₀ hpos).2 (by linarith)
  have hc : clamp ((x - edge0) / (edge1 - edge0)) 0 1 = 1 := by
    rw [clamp, min_eq_left hr, max_eq_right (by norm_num : (0 : ℚ) ≤ 1)]
  simp only [smoothstep, hc]
  ring

lemma smoothstep_mono {edge0 edge1 x y : ℚ} (hlt : edge0 < edge1) (hxy : x ≤ y) :
    smoothstep edge0 edge1 x ≤ smoothstep edge0 edge1 y := by
  have hpos : 0 < edge1 - edge0 := by linarith
  have hr : (x - edge0) / (edge1 - edge0) ≤ (y - edge0) / (edge1 - edge0) :=
    (div_le_div_iff_of_pos_right hpos).2 (by linarith)
  have hc := clamp01_mono hr
  exact hermite_cubic_mono (clamp01_nonneg _) hc (clamp01_le_one _)

/-- C3: for thresholds a < b ≤ c < d, the windowed blend
pulse(a,b,c,d,x) = min(smoothstep(a,b,x), 1 - smoothstep(c,d,x)) used by the
render loop to blend the camera look target (src/main.ts lines 339-340) is 0
below a and above d, is 1 on [b,c], is non-decreasing on [a,b] and
non-increasing on [c,d]. -/
theorem pulse_window (a b c d : ℚ) (hab : a < b) (hbc : b ≤ c) (hcd : c < d) :
    (∀ x, x < a → pulse a b c d x = 0) ∧
    (∀ x, d < x → pulse a b c d x = 0) ∧
    (∀ x, b ≤ x → x ≤ c → pulse a b c d x = 1) ∧
    (∀ x y, a ≤ x → x ≤ y → y ≤ b → pulse a b c d x ≤ pulse a b c d y) ∧
    (∀ x y, c ≤ x → x ≤ y → y ≤ d → pulse a b c d y ≤ pulse a b c d x) := by
  refine ⟨?_, ?_, ?_, ?_, ?_⟩
  · intro x hx
    have hup : smoothstep a b x = 0 := smoothstep_of_le hab (le_of_lt hx)
    have hdown : smoothstep c d x = 0 := smoothstep_of_le hcd (by linarith)
    simp [pulse, hup, hdown]
  · intro x hx
    have hup : smoothstep a b x = 1 := smoothstep_of_ge hab (by linarith)
    have hdown : smoothstep c d x = 1 := smoothstep_of_ge hcd (le_of_lt hx)
    simp [pulse, hup, hdown]
  · intro x hbx hxc
    have hup : smoothstep a b x = 1 := smoothstep_of_ge hab hbx
    have hdown : smoothstep c d x = 0 := smoothstep_of_le hcd hxc
    simp [pulse, hup, hdown]
  · intro x y hax hxy hyb
    have hdx : smoothstep c d x = 0 := smoothstep_of_le hcd (by linarith)
    have hdy : smoothstep c d y = 0 := smoothstep_of_le hcd (by linarith)
    have hx1 : smoothstep a b x ≤ 1 := smoothstep_le_one a b x
    have hy1 : smoothstep a b y ≤ 1 := smoothstep_le_one a b y
    rw [pulse, pulse, hdx, hdy, sub_zero, min_eq_left hx1, min_eq_left hy1]
    exact smoothstep_mono hab hxy
  · intro x y hcx hxy hyd
    have hux : smoothstep a b x = 1 := smoothstep_of_ge hab (by linarith)
    have huy : smoothstep a b y = 1 := smoothstep_of_ge hab (by linarith)
    have hx1 : 1 - smoothstep c d x ≤ 1 := by
      have := smoothstep_nonneg c d x
      linarith
    have hy1 : 1 - smoothstep c d y ≤ 1 := by
      have := smoothstep_nonneg c d y
      linarith
    rw [pulse, pulse, hux, huy, min_eq_right hx1, min_eq_right hy1]
    have := smoothstep_mono hcd hxy
    linarith

/-- Witness for C3 at the spec thresholds (0.2, 0.3, 0.6, 0.7) and concrete
sample points in each region. -/
theorem pulse_window_witness :
    ((2 : ℚ) / 10 < 3 / 10 ∧ (3 : ℚ) / 10 ≤ 6 / 10 ∧ (6 : ℚ) / 10 < 7 / 10) ∧
    pulse (2/10) (3/10) (6/10) (7/10) (1/10) = 0 ∧
    pulse (2/10) (3/10) (6/10) (7/10) (8/10) = 0 ∧
    pulse (2/10) (3/10) (6/10) (7/10) (4/10) = 1 ∧
    pulse (2/10) (3/10) (6/10) (7/10) (22/100) ≤
      pulse (2/10) (3/10) (6/10) (7/10) (27/100) ∧
    pulse (2/10) (3/10) (6/10) (7/10) (68/100) ≤
      pulse (2/10) (3/10) (6/10) (7/10) (63/100) := by
  have h := pulse_window (2/10) (3/10) (6/10) (7/10) (by norm_num) (by norm_num)
    (by norm_num)
  exact ⟨⟨by norm_num, by norm_num, by norm_num⟩,
    h.1 (1/10) (by norm_num),
    h.2.1 (8/10) (by norm_num),
    h.2.2.1 (4/10) (by norm_num) (by norm_num),
    h.2.2.2.1 (22/100) (27/100) (by norm_num) (by norm_num) (by norm_num),
    h.2.2.2.2 (63/100) (68/100) (by norm_num) (by norm_num) (by norm_num)⟩

/-- The played flag never goes back from true to false. -/
lemma rideStep_played_mono (s : RideState) (e : RideEvent)
    (h : s.cutscenePlayed = true) : (rideStep s e).1.cutscenePlayed = true := by
  cases e with
  | frame progress =>
      simp [rideStep, tryStartCutscene, onScrollUpdate, h]
  | tweenComplete => simpa [rideStep] using h

/-- Once the played flag is set, no event ever starts a cutscene. -/
lemma rideStep_no_restart (s : RideState) (e : RideEvent)
    (h : s.cutscenePlayed = true) : (rideStep s e).2 = false := by
  cases e with
  | frame progress => simp [rideStep, tryStartCutscene, onScrollUpdate, h]
  | tweenComplete => simp [rideStep]

/-- If a step reports a started cutscene then it has set the played flag. -/
lemma rideStep_start_sets_played (s : RideState) (e : RideEvent)
    (h : (rideStep s e).2 = true) : (rideStep s e).1.cutscenePlayed = true := by
  cases e with
  | frame progress =>
      by_cases hp : s.cutscenePlayed = true
      · exact rideStep_played_mono s _ hp
      · simp only [Bool.not_eq_true] at hp
        by_cases hc : CUT_START ≤ progress
        · simp [rideStep, tryStartCutscene, onScrollUpdate, hp, hc]
        · simp [rideStep, tryStartCutscene, onScrollUpdate, hp, hc] at h
  | tweenComplete => simp [rideStep] at h

/-- With the played flag set, a whole event sequence starts no cutscene. -/
lemma countStarts_of_played (s : RideState) (h : s.cutscenePlayed = true) :
    ∀ es : List RideEvent, countStarts s es = 0 := by
  intro es
  induction es generalizing s with
  | nil => rfl
  | cons e rest ih =>
      rw [countStarts, rideStep_no_restart s e h, if_neg (by simp),
        ih _ (rideStep_played_mono s e h)]

/-- C5: the scripted cutscene is triggered at most once per session — over any
sequence of frames and tween completions, from any state, the number of
cutscene starts is at most 1; a frame whose scroll progress has reached
CUT_START while the flag is still unset does start the tween (setting the
played flag and resetting ride.t to CUT_START); and once the flag is set no
event ever starts another, however the scroll progress oscillates. -/
theorem cutscene_at_most_once :
    (∀ (s : RideState) (es : List RideEvent), countStarts s es ≤ 1) ∧
    (∀ (s : RideState) (p : ℚ), s.cutscenePlayed = false → CUT_START ≤ p →
      (rideStep s (.frame p)).2 = true ∧
      (rideStep s (.frame p)).1.cutscenePlayed = true ∧
      (rideStep s (.frame p)).1.rideT = CUT_START) ∧
    (∀ (s : RideState) (e : RideEvent), s.cutscenePlayed = true →
      (rideStep s e).2 = false) := by
  refine ⟨?_, ?_, fun s e h => rideStep_no_restart s e h⟩
  · intro s es
    induction es generalizing s with
    | nil => simp [countStarts]
    | cons e rest ih =>
        rw [countStarts]
        by_cases hb : (rideStep s e).2 = true
        · rw [hb, if_pos rfl,
            countStarts_of_played _ (rideStep_start_sets_played s e hb)]
        · simp only [Bool.not_eq_true] at hb
          rw [hb, if_neg (by simp)]
          simpa using ih (rideStep s e).1
  · intro s p hplayed hp
    simp [rideStep, tryStartCutscene, onScrollUpdate, hplayed, hp]

/-- Witness for C5: a session whose scroll progress oscillates below and above
the threshold repeatedly still starts exactly one cutscene, and the first
frame at 0.5 ≥ CUT_START = 0.45 from the initial state does start it. -/
theorem cutscene_at_most_once_witness :
    countStarts initRide
      [.frame (1/2), .frame (2/10), .frame (6/10), .tweenComplete,
        .frame (2/10), .frame (9/10)] ≤ 1 ∧
    initRide.cutscenePlayed = false ∧ CUT_START ≤ 1/2 ∧
    (rideStep initRide (.frame (1/2))).2 = true := by
  refine ⟨cutscene_at_most_once.1 initRide _, rfl, by norm_num [CUT_START], ?_⟩
  exact (cutscene_at_most_once.2.1 initRide (1/2) rfl (by norm_num [CUT_START])).1

/-- For lambda, dt ≥ 0 the smoothing factor 1 - exp(-lambda dt) is in [0, 1). -/
lemma damp_factor_mem (lambda dt : ℝ) (hl : 0 ≤ lambda) (hd : 0 ≤ dt) :
    0 ≤ 1 - Real.exp (-lambda * dt) ∧ 1 - Real.exp (-lambda * dt) < 1 := by
  constructor
  · have h1 : Real.exp (-lambda * dt) ≤ Real.exp 0 :=
      Real.exp_le_exp.2 (by nlinarith)
    rw [Real.exp_zero] at h1
    linarith
  · have h2 : 0 < Real.exp (-lambda * dt) := Real.exp_pos _
    linarith

/-- For lambda, dt ≥ 0 the damped value stays in the closed interval
between current and target. -/
lemma damp_between (current target lambda dt : ℝ) (hl : 0 ≤ lambda) (hd : 0 ≤ dt) :
    min current target ≤ damp current target lambda dt ∧
    damp current target lambda dt ≤ max current target := by
  obtain ⟨ha0, ha1⟩ := damp_factor_mem lambda dt hl hd
  unfold damp lerp
  rcases le_total current target with h | h
  · rw [min_eq_left h, max_eq_right h]
    constructor <;> nlinarith
  · rw [min_eq_right h, max_eq_left h]
    constructor <;> nlinarith

/-- damp at dt = 0 returns current unchanged. -/
lemma damp_zero_dt (current target lambda : ℝ) :
    damp current target lambda 0 = current := by
  simp [damp, lerp]

/-- C2: for every current, target, lambda ≥ 0 and dt ≥ 0, the exponential
smoothing step damp = lerp(current, target, 1 - exp(-lambda dt)) lies in the
closed interval between current and target (no overshoot), equals current
exactly at dt = 0, and is exactly the step ScrollController.update applies to
its progress field (src/myself.ts lines 315-318 and 371-374). -/
theorem damp_no_overshoot (current target lambda dt : ℝ)
    (hl : 0 ≤ lambda) (hd : 0 ≤ dt) :
    min current target ≤ damp current target lambda dt ∧
    damp current target lambda dt ≤ max current target ∧
    damp current target lambda 0 = current ∧
    ∀ s : ScrollState,
      (scrollUpdate s dt).progress = damp s.progress s.target smoothing dt := by
  obtain ⟨h1, h2⟩ := damp_between current target lambda dt hl hd
  exact ⟨h1, h2, damp_zero_dt current target lambda, fun s => rfl⟩

/-- Witness for C2 at current = 0, target = 1, lambda = 10, dt = 2. -/
theorem damp_no_overshoot_witness :
    (0 : ℝ) ≤ 10 ∧ (0 : ℝ) ≤ 2 ∧
    (min (0 : ℝ) 1 ≤ damp 0 1 10 2 ∧
      damp 0 1 10 2 ≤ max (0 : ℝ) 1 ∧
      damp 0 1 10 0 = 0 ∧
      ∀ s : ScrollState,
        (scrollUpdate s 2).progress = damp s.progress s.target smoothing 2) :=
  ⟨by norm_num, by norm_num,
    damp_no_overshoot 0 1 10 2 (by norm_num) (by norm_num)⟩

/-- One follower step multiplies the remaining distance to 1
by exp(-10 * 0.016). -/
lemma followerProgress_step (n : ℕ) :
    1 - followerProgress (n + 1) =
      (1 - followerProgress n) * Real.exp (-(10 * 0.016)) := by
  simp only [followerProgress, damp, lerp, smoothing]
  have harg : (-10 : ℝ) * 0.016 = -(10 * 0.016) := by norm_num
  rw [harg]
  ring

/-- Closed form of the follower iteration. -/
lemma followerProgress_closed (n : ℕ) :
    followerProgress n = 1 - Real.exp (-(10 * 0.016) * n) := by
  induction n with
  | zero => simp [followerProgress]
  | succ n ih =>
      have h := followerProgress_step n
      rw [ih] at h
      have hsplit : (-(10 * 0.016) * ((n : ℝ) + 1)) =
          (-(10 * 0.016) * (n : ℝ)) + (-(10 * 0.016)) := by ring
      rw [Nat.cast_succ, hsplit, Real.exp_add]
      linarith

/-- exp 7 is at least 8. -/
lemma exp_seven_ge : (8 : ℝ) ≤ Real.exp 7 := by
  have h := Real.add_one_le_exp (7 : ℝ)
  linarith

/-- exp(-28) is below the 1e-3 tolerance. -/
lemma exp_neg_28_small : Real.exp (-28) ≤ 1 / 1000 := by
  have h4 : ((4 : ℕ) : ℝ) * 7 = 28 := by norm_num
  have hpow : Real.exp 28 = Real.exp 7 ^ 4 := by
    rw [← h4, Real.exp_nat_mul]
  have h8 : (8 : ℝ) ^ 4 ≤ Real.exp 7 ^ 4 :=
    pow_le_pow_left₀ (by norm_num) exp_seven_ge 4
  have hbig : (1000 : ℝ) ≤ Real.exp 28 := by
    rw [hpow]
    nlinarith
  rw [Real.exp_neg]
  rw [inv_eq_one_div]
  apply div_le_div_of_nonneg_left (by norm_num) (by norm_num)
  exact hbig

/-- C6: starting from progress 0 with target 1 and lambda = 10, iterating
ScrollController.update with fixed dt = 0.016: after n steps progress equals
1 - exp(-10 * 0.016 * n) exactly, and for every n ≥ 312 (5 simulated seconds
at 62.5 steps per second) progress is within 1e-3 of 1. -/
theorem follower_converges (n : ℕ) (hn : 312 ≤ n) :
    followerProgress n = 1 - Real.exp (-(10 * 0.016) * n) ∧
    |followerProgress n - 1| ≤ 1 / 1000 := by
  refine ⟨followerProgress_closed n, ?_⟩
  rw [followerProgress_closed n]
  have hn' : (312 : ℝ) ≤ (n : ℝ) := by exact_mod_cast hn
  have habs : |1 - Real.exp (-(10 * 0.016) * n) - 1| =
      Real.exp (-(10 * 0.016) * n) := by
    rw [show (1 : ℝ) - Real.exp (-(10 * 0.016) * n) - 1 =
      -(Real.exp (-(10 * 0.016) * n)) by ring, abs_neg,
      abs_of_pos (Real.exp_pos _)]
  rw [habs]
  have hmono : Real.exp (-(10 * 0.016) * n) ≤ Real.exp (-28) :=
    Real.exp_le_exp.2 (by nlinarith)
  exact le_trans hmono exp_neg_28_small

/-- Witness for C6 at n = 312. -/
theorem follower_converges_witness :
    312 ≤ 312 ∧
    (followerProgress 312 = 1 - Real.exp (-(10 * 0.016) * (312 : ℕ)) ∧
      |followerProgress 312 - 1| ≤ 1 / 1000) :=
  ⟨le_refl 312, follower_converges 312 (le_refl 312)⟩

lemma clamp01_mem (v : ℝ) : 0 ≤ clamp01 v ∧ clamp01 v ≤ 1 :=
  ⟨le_max_left 0 _, max_le (by norm_num) (min_le_left 1 v)⟩

/-- Every valid operation preserves the [0, 1] invariant. -/
lemma applyOp_preserves (s : ScrollState) (op : ScrollOp)
    (hv : validOp op) (hs : scrollInvariant s) : scrollInvariant (applyOp s op) := by
  obtain ⟨ht0, ht1, hp0, hp1⟩ := hs
  cases op with
  | wheel d =>
      by_cases he : s.enabled
      · obtain ⟨h0, h1⟩ := clamp01_mem (s.target + d * wheelStrength)
        simp only [applyOp, wheelEvent, he, if_true]
        exact ⟨h0, h1, hp0, hp1⟩
      · simp only [applyOp, wheelEvent, he, if_false]
        exact ⟨ht0, ht1, hp0, hp1⟩
  | setTarget v =>
      obtain ⟨h0, h1⟩ := clamp01_mem v
      exact ⟨h0, h1, hp0, hp1⟩
  | setInstant v =>
      obtain ⟨h0, h1⟩ := clamp01_mem v
      exact ⟨h0, h1, h0, h1⟩
  | setEnabled b => exact ⟨ht0, ht1, hp0, hp1⟩
  | update dt =>
      obtain ⟨hlo, hhi⟩ :=
        damp_between s.progress s.target smoothing dt (by norm_num [smoothing]) hv
      refine ⟨ht0, ht1, ?_, ?_⟩
      · calc (0 : ℝ) ≤ min s.progress s.target := le_min hp0 ht0
          _ ≤ _ := hlo
      · calc damp s.progress s.target smoothing dt ≤ max s.progress s.target := hhi
          _ ≤ 1 := max_le hp1 ht1

/-- Valid operation sequences preserve the invariant from any state. -/
lemma runOps_preserves (ops : List ScrollOp) (s : ScrollState)
    (hv : ∀ op ∈ ops, validOp op) (hs : scrollInvariant s) :
    scrollInvariant (runOps s ops) := by
  induction ops generalizing s with
  | nil => exact hs
  | cons op rest ih =>
      exact ih (applyOp s op) (fun o ho => hv o (List.mem_cons_of_mem op ho))
        (applyOp_preserves s op (hv op (List.mem_cons_self op rest)) hs)

/-- C7: the ScrollController keeps target and progress in [0, 1]: the initial
state satisfies the invariant, every wheel event, setTarget, setInstant,
enabled-toggle and update with dt ≥ 0 preserves it, and hence any session
(finite sequence of valid operations from the initial state) stays in it. -/
theorem scroll_state_in_unit_interval :
    scrollInvariant initScroll ∧
    (∀ (s : ScrollState) (op : ScrollOp), validOp op → scrollInvariant s →
      scrollInvariant (applyOp s op)) ∧
    (∀ ops : List ScrollOp, (∀ op ∈ ops, validOp op) →
      scrollInvariant (runOps initScroll ops)) := by
  have hinit : scrollInvariant initScroll := by
    norm_num [scrollInvariant, initScroll]
  refine ⟨hinit, applyOp_preserves, ?_⟩
  intro ops hv
  exact runOps_preserves ops initScroll hv hinit

/-- Witness for C7: a concrete session mixing a large wheel delta, a
setTarget beyond range, an instant jump and an update. -/
theorem scroll_state_in_unit_interval_witness :
    (∀ op ∈ [ScrollOp.wheel 10000, ScrollOp.setTarget 7,
      ScrollOp.setInstant (-3), ScrollOp.update 0], validOp op) ∧
    scrollInvariant (runOps initScroll
      [ScrollOp.wheel 10000, ScrollOp.setTarget 7,
        ScrollOp.setInstant (-3), ScrollOp.update 0]) := by
  have hv : ∀ op ∈ [ScrollOp.wheel 10000, ScrollOp.setTarget 7,
      ScrollOp.setInstant (-3), ScrollOp.update 0], validOp op := by
    intro op hop
    fin_cases hop <;> simp [validOp]
  exact ⟨hv, scroll_state_in_unit_interval.2.2 _ hv⟩

/-- C10: for every nonnegative clock delta, the time step App.tick hands to
the per-frame updates is clamped to [0, 0.05], and the scroll update indeed
receives exactly that clamped step. -/
theorem tick_dt_clamped (s : ScrollState) (elapsed delta : ℝ) (h : 0 ≤ delta) :
    0 ≤ (appTick s elapsed delta).1 ∧
    (appTick s elapsed delta).1 ≤ 0.05 ∧
    (appTick s elapsed delta).2.2 = scrollUpdate s (min 0.05 delta) := by
  exact ⟨le_min (by norm_num) h, min_le_left _ _, rfl⟩

/-- Witness for C10 at a long stalled frame (delta = 3 seconds). -/
theorem tick_dt_clamped_witness :
    (0 : ℝ) ≤ 3 ∧
    (0 ≤ (appTick initScroll 0 3).1 ∧
      (appTick initScroll 0 3).1 ≤ 0.05 ∧
      (appTick initScroll 0 3).2.2 = scrollUpdate initScroll (min 0.05 3)) :=
  ⟨by norm_num, tick_dt_clamped initScroll 0 3 (by norm_num)⟩

/-- Truncation toward zero is the floor or the floor plus one. -/
lemma jsTrunc_eq_floor_or (q : ℚ) : jsTrunc q = ⌊q⌋ ∨ jsTrunc q = ⌊q⌋ + 1 := by
  unfold jsTrunc
  split_ifs with h
  · exact Or.inl rfl
  · rw [Int.floor_neg, neg_neg]
    have h1 : ⌊q⌋ ≤ ⌈q⌉ := Int.floor_le_ceil q
    have h2 : ⌈q⌉ ≤ ⌊q⌋ + 1 := Int.ceil_le_floor_add_one q
    omega

/-- The double-mod idiom ((a % b) + b) % b computes the true (Euclidean)
remainder b * fract(a / b), for b > 0, whatever the sign of a. -/
lemma double_jsMod_eq_fract (b a : ℚ) (hb : 0 < b) :
    jsMod (jsMod a b + b) b = b * Int.fract (a / b) := by
  have hb' : b ≠ 0 := ne_of_gt hb
  obtain ⟨q, rfl⟩ : ∃ q, a = b * q := ⟨a / b, by field_simp⟩
  have hdiv : b * q / b = q := mul_div_cancel_left₀ q hb'
  rw [hdiv]
  have hfr : Int.fract q = q - (⌊q⌋ : ℚ) := rfl
  have hexists : ∃ k : ℤ, (k = 0 ∨ k = 1) ∧ jsTrunc q = ⌊q⌋ + k := by
    obtain h | h := jsTrunc_eq_floor_or q
    · exact ⟨0, Or.inl rfl, by omega⟩
    · exact ⟨1, Or.inr rfl, h⟩
  obtain ⟨k, hk01, hk⟩ := hexists
  have hdef : ∀ x : ℚ, jsMod x b = x - b * jsTrunc (x / b) := fun x => rfl
  have hinner : jsMod (b * q) b + b = b * (Int.fract q + (1 - (k : ℚ))) := by
    rw [hdef (b * q), hdiv, hk, hfr]
    push_cast
    ring
  have houter_div : (jsMod (b * q) b + b) / b = Int.fract q + (1 - (k : ℚ)) := by
    rw [hinner, mul_div_cancel_left₀ _ hb']
  have hnn : 0 ≤ Int.fract q + (1 - (k : ℚ)) := by
    have hf := Int.fract_nonneg q
    rcases hk01 with h | h <;> rw [h] <;> push_cast <;> linarith
  have htr : jsTrunc ((jsMod (b * q) b + b) / b) = 1 - k := by
    rw [houter_div, jsTrunc, if_pos hnn]
    have hcast : Int.fract q + (1 - (k : ℚ)) = Int.fract q + ((1 - k : ℤ) : ℚ) := by
      push_cast
      ring
    rw [hcast, Int.floor_add_int, Int.floor_fract, zero_add]
  rw [hdef (jsMod (b * q) b + b), htr, hinner]
  push_cast
  ring

/-- distToT is exactly the fractional part of dist / L. -/
lemma distToT_eq_fract (L dist : ℚ) (hL : 0 < L) :
    distToT L dist = Int.fract (dist / L) := by
  rw [distToT, double_jsMod_eq_fract L dist hL, mul_div_cancel_left₀ _ (ne_of_gt hL)]

/-- C8: for every positive curve length L, distToT maps every signed distance
into [0, 1) and is periodic with period L, and the render loop's wrap
((t % 1) + 1) % 1 maps every parameter into [0, 1) and is periodic with
period 1 — progress along the closed curve wraps silently, never erring. -/
theorem progress_wraps (L : ℚ) (hL : 0 < L) :
    (∀ dist : ℚ, 0 ≤ distToT L dist ∧ distToT L dist < 1) ∧
    (∀ dist : ℚ, distToT L (dist + L) = distToT L dist) ∧
    (∀ t : ℚ, 0 ≤ wrapT t ∧ wrapT t < 1) ∧
    (∀ t : ℚ, wrapT (t + 1) = wrapT t) := by
  have hwrapT : ∀ t : ℚ, wrapT t = Int.fract t := by
    intro t
    have h : wrapT t = distToT 1 t := by
      rw [wrapT, distToT, div_one]
    rw [h, distToT_eq_fract 1 t one_pos, div_one]
  refine ⟨?_, ?_, ?_, ?_⟩
  · intro dist
    rw [distToT_eq_fract L dist hL]
    exact ⟨Int.fract_nonneg _, Int.fract_lt_one _⟩
  · intro dist
    rw [distToT_eq_fract L dist hL, distToT_eq_fract L (dist + L) hL]
    have hdiv : (dist + L) / L = dist / L + 1 := by field_simp
    rw [hdiv]
    have := Int.fract_add_int (dist / L) 1
    push_cast at this
    exact this
  · intro t
    rw [hwrapT t]
    exact ⟨Int.fract_nonneg _, Int.fract_lt_one _⟩
  · intro t
    rw [hwrapT t, hwrapT (t + 1)]
    have := Int.fract_add_int t 1
    push_cast at this
    exact this

/-- Witness for C8 at L = 7 with negative inputs. -/
theorem progress_wraps_witness :
    (0 : ℚ) < 7 ∧
    (0 ≤ distToT 7 (-10) ∧ distToT 7 (-10) < 1) ∧
    distToT 7 (-10 + 7) = distToT 7 (-10) ∧
    (0 ≤ wrapT (-(3/2)) ∧ wrapT (-(3/2)) < 1) ∧
    wrapT (-(3/2) + 1) = wrapT (-(3/2)) := by
  have h := progress_wraps 7 (by norm_num)
  exact ⟨by norm_num, h.1 (-10), h.2.1 (-10), h.2.2.1 (-(3/2)), h.2.2.2 (-(3/2))⟩

/-- C9: image loading never propagates an error: for every load outcome the
promise resolves — with the configured texture on success and with the
supplied placeholder on a load error — and never rejects, so station creation
always completes with some texture in place. -/
theorem load_never_rejects :
    (∀ (maxAniso : ℕ) (outcome : LoadOutcome) (fallback : Texture),
      ∃ t : Texture, loadImageTexture maxAniso outcome fallback = .resolved t) ∧
    (∀ (maxAniso : ℕ) (fallback : Texture),
      loadImageTexture maxAniso .err fallback = .resolved fallback) ∧
    (∀ (maxAniso : ℕ) (tex fallback : Texture),
      loadImageTexture maxAniso (.ok tex) fallback =
        .resolved (configureTex maxAniso tex)) := by
  refine ⟨?_, fun maxAniso fallback => rfl, fun maxAniso tex fallback => rfl⟩
  intro maxAniso outcome fallback
  cases outcome with
  | ok tex => exact ⟨configureTex maxAniso tex, rfl⟩
  | err => exact ⟨fallback, rfl⟩

end Theatre
